import Mathlib

/-!
# Verification of the metachor orchestration core

Shallow embedding of `src/metachor/types.py`, `src/metachor/ensemble.py`,
`src/metachor/voice.py` and the ensemble-construction part of
`src/metachor/cli.py`, together with theorems settling the frozen claims
about the phase-budgeted orchestration engine.

Modelling conventions:
* Python `float` values (times, phase weights) are embedded as exact
  rationals `ℚ`; all concrete inputs used in counterexamples are exactly
  representable in binary floating point, so the rational and float
  computations agree there.
* Python `int` is `Int` (arbitrary precision); Python `//` is `Int.fdiv`
  (floor division) and `int(x)` on a float is truncation toward zero
  (`pyInt` below).
* Wall-clock readings (`time.time()` differences) are not computable in the
  embedding; they enter as explicit environment parameters (`elapsed`
  values), and the `"%.2f"` rendering of the final elapsed time enters as
  an opaque string parameter.
* The `asyncio` fan-out of one `Voice.send` per voice is embedded by an
  environment assigning each voice an outcome at the phase deadline:
  completed with a `Message`, failed with a transport error
  (`httpx.HTTPError` re-raised as `RuntimeError`, voice.py lines 79-81),
  or still pending when the deadline elapsed.  `asyncio.gather` without
  `return_exceptions` completes with the first child exception (which, by
  definition of the `failed` outcome, occurs before the deadline), so a
  failure takes priority over the timeout.
-/

namespace Metachor

/-! ## Data model (src/metachor/types.py) -/

/-- `Phase` enum, types.py lines 4-10. -/
inductive Phase
  | initialization
  | userAnalysis
  | responsePlanning
  | responseDrafting
  | responseRefining
  deriving DecidableEq, Repr

/-- `ResourceConstraints` dataclass, types.py lines 21-26.
`max_tokens` and `max_iterations` are Python ints, `max_time` a float. -/
structure ResourceConstraints where
  max_tokens : Int
  max_iterations : Int
  max_time : ℚ
  deriving DecidableEq, Repr

/-- `Message` dataclass, types.py lines 28-35 (`tokens_used` is an
`int ≥ 0`, being a token count reported by the completion API). -/
structure Message where
  content : String
  tokens_used : Nat
  from_model : String
  to_model : String
  phase : Phase
  deriving DecidableEq, Repr

/-! ## Phase weight table (ensemble.py lines 17-24, `PHASE_BUDGETS`) -/

/-- The `"time"` column of `Ensemble.PHASE_BUDGETS`. -/
def timeWeight : Phase → ℚ
  | .initialization => 1/10
  | .userAnalysis => 1/5
  | .responsePlanning => 1/5
  | .responseDrafting => 2/5
  | .responseRefining => 1/10

/-- The `"tokens"` column of `Ensemble.PHASE_BUDGETS`. -/
def tokenWeight : Phase → ℚ
  | .initialization => 1/10
  | .userAnalysis => 1/5
  | .responsePlanning => 1/5
  | .responseDrafting => 2/5
  | .responseRefining => 1/10

/-- The full ordered phase table. -/
def allPhases : List Phase :=
  [.initialization, .userAnalysis, .responsePlanning, .responseDrafting, .responseRefining]

/-- The phases `Ensemble.send` actually dispatches on the collaborative
path (ensemble.py lines 92-139): analysis, planning, drafting.
`INITIALIZATION` is dispatched only by `initialize_meta_discussion`, which
`send` never calls, and `RESPONSE_REFINING` is never dispatched anywhere. -/
def collabPhases : List Phase :=
  [.userAnalysis, .responsePlanning, .responseDrafting]

/-! ## Budget arithmetic -/

/-- Python `int(x)` applied to a float: truncation toward zero. -/
def pyInt (q : ℚ) : Int := if 0 ≤ q then ⌊q⌋ else -⌊-q⌋

/-- A phase's derived ephemeral budget. -/
structure PhaseBudget where
  time_budget : ℚ
  token_budget : Int
  deriving DecidableEq, Repr

/-- Budget computation at the top of `Ensemble._run_phase_with_timeout`
(ensemble.py lines 41-43): `time_budget = constraints.max_time *
PHASE_BUDGETS[phase]["time"]`, `token_budget = int(constraints.max_tokens *
PHASE_BUDGETS[phase]["tokens"])`. -/
def phaseBudget (c : ResourceConstraints) (p : Phase) : PhaseBudget :=
  { time_budget := c.max_time * timeWeight p
    token_budget := pyInt ((c.max_tokens : ℚ) * tokenWeight p) }

/-- The per-iteration constraints built in `Ensemble._collaborate_phase`
(ensemble.py lines 198-202) from the resources remaining at the head of
iteration `i` of `iterations`: `max_tokens = remaining_tokens //
(iterations - i)`, `max_time = remaining_time / (iterations - i)`.
`total_tokens` is `self._total_tokens` and `elapsed` is
`time.time() - self._start_time` at that point. -/
def iterationConstraints (c : ResourceConstraints) (total_tokens : Nat)
    (elapsed : ℚ) (iterations i : Nat) : ResourceConstraints :=
  { max_tokens := Int.fdiv (c.max_tokens - (total_tokens : Int)) ((iterations - i : Nat) : Int)
    max_iterations := 1
    max_time := (c.max_time - elapsed) / ((iterations - i : Nat) : ℚ) }

/-- Modelled from the spec (§4.1): the claimed allocation policy
`phaseBudget = min(weight × original constraint value, remaining)` for
tokens, with `remaining = maxTokens − totalTokensUsed`.  This definition
follows the spec's words and exists only to be compared with the budget
the code actually computes. -/
def specTokenBudget (original : ResourceConstraints) (total_tokens : Nat) (p : Phase) : Int :=
  min (pyInt ((original.max_tokens : ℚ) * tokenWeight p))
    (original.max_tokens - (total_tokens : Int))

/-- Modelled from the spec (§4.1): the claimed time-budget policy
`min(weight × original maxTime, maxTime − elapsed)`. -/
def specTimeBudget (original : ResourceConstraints) (elapsed : ℚ) (p : Phase) : ℚ :=
  min (original.max_time * timeWeight p) (original.max_time - elapsed)

/-- The per-voice token budget passed to each `Voice.send` task
(ensemble.py line 55): `token_budget // len(self.voices)`, one task per
voice (lines 49-59). -/
def voiceCallBudgets (token_budget : Int) (voices : List String) : List Int :=
  voices.map (fun _ => Int.fdiv token_budget (voices.length : Int))

/-! ## Phase dispatch (ensemble.py `_run_phase_with_timeout`, lines 34-81) -/

/-- The state of one voice's `send` task at the moment the phase's
deadline question is settled: it completed with a `Message` before the
deadline, it raised a transport error (`RuntimeError`, voice.py lines
79-81) before the deadline, or it was still pending when the deadline
elapsed. -/
inductive VoiceOutcome
  | completed (m : Message)
  | failed
  | pending
  deriving DecidableEq, Repr

/-- Exceptions that can escape `_run_phase_with_timeout`:
`PhaseTimeoutError` (ensemble.py line 81) or the transport `RuntimeError`
re-raised by `asyncio.gather` (uncaught at lines 75-81, which catch only
`asyncio.TimeoutError`). -/
inductive PhaseError
  | timeout
  | transport
  deriving DecidableEq, Repr

/-- The messages of the tasks that completed, in task order. -/
def completedMessages : List VoiceOutcome → List Message
  | [] => []
  | .completed m :: rest => m :: completedMessages rest
  | .failed :: rest => completedMessages rest
  | .pending :: rest => completedMessages rest

/-- The tasks cancelled in the `asyncio.TimeoutError` handler
(ensemble.py lines 78-80): every task with `not task.done()`, i.e. the
still-pending ones (completed and failed tasks are done). -/
def cancelledOnTimeout (outcomes : List VoiceOutcome) : List VoiceOutcome :=
  outcomes.filter (fun o => o == .pending)

/-- `await asyncio.wait_for(asyncio.gather(*tasks), timeout=time_budget)`
followed by the handler (ensemble.py lines 61-81).  `gather` (without
`return_exceptions`) completes with the first child exception, which by
definition of `failed` happens before the deadline, so a transport failure
propagates out (uncaught by the `except asyncio.TimeoutError` clause);
otherwise, if the deadline elapses with a task still pending,
`PhaseTimeoutError` is raised; otherwise all messages are returned. -/
def runPhaseDispatch (outcomes : List VoiceOutcome) : Except PhaseError (List Message) :=
  if outcomes.any (fun o => o == .failed) then .error .transport
  else if outcomes.any (fun o => o == .pending) then .error .timeout
  else .ok (completedMessages outcomes)

/-! ## Run-state accounting (ensemble.py lines 29-32, 67-70, 85-86) -/

/-- The orchestrator's per-call mutable accounting state:
`_total_tokens`, `_phase_tokens`, and the Messages recorded during the
current call (the per-phase response history: each batch is appended to
`all_responses` and `conversation_history`, ensemble.py lines 210-211). -/
structure RunState where
  total_tokens : Nat
  phase_tokens : Phase → Nat
  responses : List Message

/-- State at `send` entry (ensemble.py lines 85-86): `_total_tokens` is
reset to 0; `_phase_tokens` is *not* reset (it carries whatever a previous
call left, zeros on a fresh `Ensemble`); no Message has been recorded for
this call yet. -/
def initRunState (pt : Phase → Nat) : RunState :=
  { total_tokens := 0, phase_tokens := pt, responses := [] }

/-- Recording one successful phase batch (ensemble.py lines 67-70 together
with 210-211): `_phase_tokens[phase] = phase_tokens` (assignment, not an
increment), `_total_tokens += phase_tokens`, and the batch's messages are
appended to the call's response history. -/
def recordBatch (st : RunState) (phase : Phase) (batch : List Message) : RunState :=
  { total_tokens := st.total_tokens + (batch.map Message.tokens_used).sum
    phase_tokens := fun p =>
      if p = phase then (batch.map Message.tokens_used).sum else st.phase_tokens p
    responses := st.responses ++ batch }

/-- A call's accounting evolution: the phase batches recorded during the
call, in order, folded over `recordBatch`. -/
def applyBatches (st : RunState) (batches : List (Phase × List Message)) : RunState :=
  batches.foldl (fun s b => recordBatch s b.1 b.2) st

/-! ## Rotation (ensemble.py `_get_next_voice`, lines 256-282) -/

/-- `Ensemble._get_next_voice`.  `none` models the `ValueError` raised for
an empty voice list (line 269); `voices.index(current)` raising is modelled
by the membership test (the `except ValueError` fallback returns
`voices[0]`, line 276); otherwise the result is
`voices[(index + 1) % len(voices)]` (lines 278-279). -/
def get_next_voice {V : Type} [DecidableEq V] : List V → V → Option V
  | [], _ => none
  | v0 :: rest, current =>
    if current ∈ v0 :: rest then
      (v0 :: rest)[(((v0 :: rest).indexOf current + 1) % (v0 :: rest).length)]?
    else some v0

/-- `n`-fold application of the rotation. -/
def iterNext {V : Type} [DecidableEq V] (voices : List V) : Nat → V → Option V
  | 0, v => some v
  | n + 1, v => (get_next_voice voices v).bind (iterNext voices n)

/-! ## Response aggregation (ensemble.py `_integrate_responses`,
lines 223-235, and the effective `_format_final_response`, lines 284-291;
the earlier definition at lines 237-254 is shadowed by the later one in
the class body and never runs) -/

/-- The loop body of `_integrate_responses` (lines 230-233): for each
response, `content = response.content.strip()`; it is appended iff
`content` is non-empty (Python truthiness) and not already present. -/
def ucStep (acc : List String) (r : Message) : List String :=
  let content := r.content.trim
  if content ≠ "" ∧ content ∉ acc then acc ++ [content] else acc

/-- The `unique_contents` accumulator of `_integrate_responses` (lines
229-233). -/
def unique_contents (responses : List Message) : List String :=
  responses.foldl ucStep []

/-- `Ensemble._integrate_responses` (lines 223-235): empty input returns
`""`; otherwise the unique contents are joined with a blank line. -/
def integrate_responses (responses : List Message) : String :=
  if responses = [] then ""
  else String.intercalate "\n\n" (unique_contents responses)

/-- The literal returned when there is no content (ensemble.py line 287). -/
def noResponseNotice : String := "No response generated within resource constraints."

/-- The *effective* `Ensemble._format_final_response` (ensemble.py lines
284-291; the second definition in the class body shadows the one at lines
237-254).  `elapsed_repr` stands for the `f"{time.time() - self._start_time:.2f}"`
rendering of the elapsed seconds, which is not computable in the embedding. -/
def format_final_response (st : RunState) (elapsed_repr : String) (response : String) : String :=
  if response = "" then noResponseNotice
  else
    response.trim ++ "\n\n---\nGenerated using " ++ toString st.total_tokens
      ++ " tokens in " ++ elapsed_repr ++ "s"

/-! ## The phase loop (ensemble.py `_collaborate_phase`, lines 175-221) -/

/-- One environment entry per loop iteration: the elapsed wall-clock time
at the head of the iteration (line 190) and the outcome of each voice's
task in that iteration's dispatch. -/
abbrev IterEnv := ℚ × List VoiceOutcome

/-- `Ensemble._collaborate_phase`: for each iteration, compute the
remaining budget (lines 190-191); if time or tokens are exhausted, break
(lines 193-195); otherwise dispatch the batch; on success record it
(ensemble.py lines 67-70, 210-211) and continue; a `PhaseTimeoutError` or
any other exception from the dispatch is caught by the handlers at
lines 216-219, ending the loop with the responses accumulated so far.
Returns the updated state and `all_responses`. -/
def collaboratePhase (c : ResourceConstraints) (phase : Phase) :
    RunState → List Message → List IterEnv → RunState × List Message
  | st, acc, [] => (st, acc)
  | st, acc, (elapsed, outcomes) :: rest =>
    let remaining_time := c.max_time - elapsed
    let remaining_tokens := c.max_tokens - (st.total_tokens : Int)
    if remaining_time ≤ 0 ∨ remaining_tokens ≤ 0 then (st, acc)
    else
      match runPhaseDispatch outcomes with
      | .ok batch => collaboratePhase c phase (recordBatch st phase batch) (acc ++ batch) rest
      | .error _ => (st, acc)

/-! ## The orchestration entry point (ensemble.py `Ensemble.send`,
lines 83-146) -/

/-- The wall-clock and network environment of one `send` call: the
iteration environments consumed by the three collaboration phases, the
elapsed readings at the two budget checkpoints (lines 101, 121), and the
rendering of the final elapsed time (line 290). -/
structure SendEnv where
  analysisIters : List IterEnv
  elapsedAfterAnalysis : ℚ
  planIters : List IterEnv
  elapsedAfterPlanning : ℚ
  draftIters : List IterEnv
  finalElapsedRepr : String

/-- `Ensemble.send` (ensemble.py lines 83-146).  `pt0` is the
`_phase_tokens` content at call entry (it is not reset by `send`).
The analysis phase runs with the caller's constraints and 2 iterations
(lines 94-99); if time and tokens remain (line 104), planning runs with
half the remaining resources (lines 106-118); if resources still remain
(line 124), drafting runs with everything left (lines 125-139) and the
draft is the integration of its responses.  Each `_collaborate_phase`
call catches every exception internally, so the `except` at lines 141-144
is unreachable and `send` always returns the formatted response
(line 146). -/
def sendModel (c : ResourceConstraints) (pt0 : Phase → Nat) (env : SendEnv) : String :=
  let st0 := initRunState pt0
  let r1 := collaboratePhase c .userAnalysis st0 [] env.analysisIters
  let st1 := r1.1
  let remaining_time1 := c.max_time - env.elapsedAfterAnalysis
  let remaining_tokens1 := c.max_tokens - (st1.total_tokens : Int)
  if 0 < remaining_time1 ∧ 0 < remaining_tokens1 then
    let planC : ResourceConstraints :=
      { max_tokens := Int.fdiv remaining_tokens1 2
        max_iterations := Int.fdiv c.max_iterations 2
        max_time := remaining_time1 / 2 }
    let r2 := collaboratePhase planC .responsePlanning st1 [] env.planIters
    let st2 := r2.1
    let remaining_time2 := c.max_time - env.elapsedAfterPlanning
    let remaining_tokens2 := c.max_tokens - (st2.total_tokens : Int)
    if 0 < remaining_time2 ∧ 0 < remaining_tokens2 then
      let draftC : ResourceConstraints :=
        { max_tokens := remaining_tokens2
          max_iterations := max 1 (Int.fdiv c.max_iterations 2)
          max_time := remaining_time2 }
      let r3 := collaboratePhase draftC .responseDrafting st2 [] env.draftIters
      format_final_response r3.1 env.finalElapsedRepr (integrate_responses r3.2)
    else format_final_response st2 env.finalElapsedRepr ""
  else format_final_response st1 env.finalElapsedRepr ""

/-! ## Ensemble construction (cli.py `create_ensemble`, lines 111-129) -/

/-- `create_ensemble`: with no `OPENROUTER_API_KEY` in the environment it
raises `typer.BadParameter` before any orchestration or network
interaction (cli.py lines 113-118); otherwise it builds one Voice per
model id (lines 120-129).  A voice is represented here by its model id. -/
def create_ensemble (api_key : Option String) (models : List String) :
    Except String (List String) :=
  match api_key with
  | none =>
    .error ("OPENROUTER_API_KEY not found in environment variables. "
      ++ "Please set it in your .env file.")
  | some _ => .ok models

/-! ## Theorems -/

/-- `int()` of an integer-valued rational is that integer. -/
theorem pyInt_intCast (n : ℤ) : pyInt ((n : ℚ)) = n := by
  unfold pyInt
  by_cases h : (0 : ℚ) ≤ (n : ℚ)
  · rw [if_pos h, Int.floor_intCast]
  · rw [if_neg h, show (-(n : ℚ)) = (((-n : ℤ)) : ℚ) by push_cast; ring,
      Int.floor_intCast]
    ring

/-- C7 counterexample: over the phases the collaborative path actually
executes (USER_ANALYSIS, RESPONSE_PLANNING, RESPONSE_DRAFTING), the time
weights and the token weights do *not* sum to 1. -/
theorem collab_weight_sums_not_one :
    ¬((collabPhases.map timeWeight).sum = 1 ∧ (collabPhases.map tokenWeight).sum = 1) := by
  intro h
  have := h.1
  simp [collabPhases, timeWeight] at this
  norm_num at this

/-- C7 amended: the weights of the full five-phase table sum to 1 each,
but over the phases actually executed by `Ensemble.send` the time weights
and the token weights each sum to 4/5 (= 0.8), not 1. -/
theorem phase_weight_sums :
    (collabPhases.map timeWeight).sum = 4/5 ∧
    (collabPhases.map tokenWeight).sum = 4/5 ∧
    (allPhases.map timeWeight).sum = 1 ∧
    (allPhases.map tokenWeight).sum = 1 := by
  refine ⟨?_, ?_, ?_, ?_⟩ <;>
    · simp [collabPhases, allPhases, timeWeight, tokenWeight]
      norm_num

/-- C9: every voice's `send` task is built with a per-call token budget of
exactly `token_budget // len(voices)` (floor division); with a 100-token
budget over 2 voices each voice is passed exactly 50; with 3 voices each
gets 33 and the remainder is dropped (the budgets sum to 99, not 100). -/
theorem per_voice_token_split :
    (∀ (B : Int) (voices : List String),
        (voiceCallBudgets B voices).all
          (fun b => b == Int.fdiv B (voices.length : Int)) = true) ∧
    voiceCallBudgets 100 ["mistralai/ministral-8b", "liquid/lfm-40b"] = [50, 50] ∧
    voiceCallBudgets 100 ["a", "b", "c"] = [33, 33, 33] ∧
    ([33, 33, 33] : List Int).sum = 99 := by
  refine ⟨?_, by decide, by decide, by decide⟩
  intro B voices
  simp [voiceCallBudgets, List.all_eq_true]

/-- C3 counterexample: with one voice completed and one still pending at
the deadline, `_run_phase_with_timeout` raises `PhaseTimeoutError`; it
does not return the partial list of completed Messages. -/
theorem timeout_discards_partial_cex :
    runPhaseDispatch
        [.completed ⟨"partial answer", 7, "model1", "model2", .userAnalysis⟩, .pending]
      = .error .timeout ∧
    runPhaseDispatch
        [.completed ⟨"partial answer", 7, "model1", "model2", .userAnalysis⟩, .pending]
      ≠ .ok [⟨"partial answer", 7, "model1", "model2", .userAnalysis⟩] := by
  exact ⟨rfl, fun h => Except.noConfusion h⟩

/-- C3 amended: if the deadline elapses while some task is still pending
(and no task failed first), the dispatcher does cancel exactly the
still-running tasks, but it raises `PhaseTimeoutError` instead of
returning the already-completed Messages; the partial batch is discarded
at this layer and the deadline surfaces as an exception caught one level
up in `_collaborate_phase`. -/
theorem timeout_raises_and_cancels :
    ∀ (outcomes : List VoiceOutcome),
      VoiceOutcome.pending ∈ outcomes →
      VoiceOutcome.failed ∉ outcomes →
      runPhaseDispatch outcomes = .error .timeout ∧
      ∀ (o : VoiceOutcome),
        (o ∈ cancelledOnTimeout outcomes ↔ o ∈ outcomes ∧ o = .pending) := by
  intro outcomes hp hf
  constructor
  · unfold runPhaseDispatch
    rw [if_neg, if_pos]
    · simp only [List.any_eq_true, beq_iff_eq]
      exact ⟨.pending, hp, rfl⟩
    · simp only [List.any_eq_true, beq_iff_eq]
      rintro ⟨o, ho, rfl⟩
      exact hf ho
  · intro o
    simp [cancelledOnTimeout, List.mem_filter]

/-- C3 witness: the amended theorem applied to the concrete batch of one
completed and one pending task. -/
theorem timeout_raises_and_cancels_witness :
    (VoiceOutcome.pending ∈
        ([.completed ⟨"partial answer", 7, "model1", "model2", .userAnalysis⟩, .pending] :
          List VoiceOutcome)) ∧
    runPhaseDispatch
        [.completed ⟨"partial answer", 7, "model1", "model2", .userAnalysis⟩, .pending]
      = .error .timeout := by
  refine ⟨by decide, ?_⟩
  exact (timeout_raises_and_cancels _ (by decide) (by decide)).1

/-- C4 counterexample: with one voice completed and one voice failed with
a transport error before the deadline, the dispatch propagates the error;
the phase does not return the Messages of the voices that succeeded. -/
theorem transport_failure_aborts_batch_cex :
    runPhaseDispatch
        [.completed ⟨"good answer", 5, "model1", "model2", .responseDrafting⟩, .failed]
      = .error .transport ∧
    runPhaseDispatch
        [.completed ⟨"good answer", 5, "model1", "model2", .responseDrafting⟩, .failed]
      ≠ .ok [⟨"good answer", 5, "model1", "model2", .responseDrafting⟩] := by
  exact ⟨rfl, fun h => Except.noConfusion h⟩

/-- C4 amended: a transport failure in any voice aborts the whole batch:
`asyncio.gather` (without `return_exceptions`) propagates the error, the
Messages of the voices that succeeded in that batch are discarded, and
`_collaborate_phase` catches the exception and keeps only messages
accumulated before that iteration. -/
theorem transport_failure_propagates :
    ∀ (outcomes : List VoiceOutcome),
      VoiceOutcome.failed ∈ outcomes →
      runPhaseDispatch outcomes = .error .transport ∧
      ∀ (c : ResourceConstraints) (phase : Phase) (st : RunState)
        (elapsed : ℚ) (rest : List IterEnv),
        ¬(c.max_time - elapsed ≤ 0 ∨ c.max_tokens - (st.total_tokens : Int) ≤ 0) →
        collaboratePhase c phase st [] ((elapsed, outcomes) :: rest) = (st, []) := by
  intro outcomes hf
  have hdisp : runPhaseDispatch outcomes = .error .transport := by
    unfold runPhaseDispatch
    rw [if_pos]
    simp only [List.any_eq_true, beq_iff_eq]
    exact ⟨.failed, hf, rfl⟩
  refine ⟨hdisp, ?_⟩
  intro c phase st elapsed rest hres
  unfold collaboratePhase
  rw [if_neg hres, hdisp]

/-- C4 witness: the amended theorem applied to the concrete batch of one
completed and one failed task, inside a fresh run with ample resources. -/
theorem transport_failure_propagates_witness :
    (VoiceOutcome.failed ∈
        ([.completed ⟨"good answer", 5, "model1", "model2", .responseDrafting⟩, .failed] :
          List VoiceOutcome)) ∧
    collaboratePhase ⟨1000, 10, 30⟩ .responseDrafting (initRunState fun _ => 0) []
        [(0, [.completed ⟨"good answer", 5, "model1", "model2", .responseDrafting⟩, .failed])]
      = (initRunState fun _ => 0, []) := by
  refine ⟨by decide, ?_⟩
  exact (transport_failure_propagates _ (by decide)).2 ⟨1000, 10, 30⟩ .responseDrafting
    (initRunState fun _ => 0) 0 [] (by norm_num [initRunState])

/-- C2 counterexample: at the first USER_ANALYSIS iteration of a call with
original constraints `max_tokens = 1000, max_time = 30.0` (no tokens used,
no time elapsed, 2 iterations), the code computes a token budget of
`int((1000 // 2) * 0.2) = 100` and a time budget of `(30 / 2) * 0.2 = 3`,
whereas the claimed `min(weight × original, remaining)` policy would give
`min(200, 1000) = 200` tokens and `min(6, 30) = 6` seconds. -/
theorem phase_budget_not_min_cex :
    (phaseBudget (iterationConstraints ⟨1000, 10, 30⟩ 0 0 2 0) .userAnalysis).token_budget
      = 100 ∧
    specTokenBudget ⟨1000, 10, 30⟩ 0 .userAnalysis = 200 ∧
    (phaseBudget (iterationConstraints ⟨1000, 10, 30⟩ 0 0 2 0) .userAnalysis).token_budget
      ≠ specTokenBudget ⟨1000, 10, 30⟩ 0 .userAnalysis ∧
    (phaseBudget (iterationConstraints ⟨1000, 10, 30⟩ 0 0 2 0) .userAnalysis).time_budget
      = 3 ∧
    specTimeBudget ⟨1000, 10, 30⟩ 0 .userAnalysis = 6 ∧
    (phaseBudget (iterationConstraints ⟨1000, 10, 30⟩ 0 0 2 0) .userAnalysis).time_budget
      ≠ specTimeBudget ⟨1000, 10, 30⟩ 0 .userAnalysis := by
  have hc : iterationConstraints ⟨1000, 10, 30⟩ 0 0 2 0 =
      ({ max_tokens := 500, max_iterations := 1, max_time := 15 } : ResourceConstraints) := by
    unfold iterationConstraints
    refine congrArg₂ (fun a b => ResourceConstraints.mk a 1 b) ?_ ?_
    · decide
    · norm_num
  have htok :
      (phaseBudget (iterationConstraints ⟨1000, 10, 30⟩ 0 0 2 0) .userAnalysis).token_budget
        = 100 := by
    rw [hc]
    show pyInt ((500 : ℚ) * tokenWeight .userAnalysis) = 100
    rw [show ((500 : ℚ) * tokenWeight .userAnalysis) = ((100 : ℤ) : ℚ) by
      norm_num [tokenWeight]]
    exact pyInt_intCast 100
  have hspec : specTokenBudget ⟨1000, 10, 30⟩ 0 .userAnalysis = 200 := by
    unfold specTokenBudget
    rw [show (((1000 : Int) : ℚ) * tokenWeight .userAnalysis) = ((200 : ℤ) : ℚ) by
      norm_num [tokenWeight]]
    rw [pyInt_intCast 200]
    decide
  have htime :
      (phaseBudget (iterationConstraints ⟨1000, 10, 30⟩ 0 0 2 0) .userAnalysis).time_budget
        = 3 := by
    rw [hc]
    show (15 : ℚ) * timeWeight .userAnalysis = 3
    norm_num [timeWeight]
  have hstime : specTimeBudget ⟨1000, 10, 30⟩ 0 .userAnalysis = 6 := by
    unfold specTimeBudget
    show min ((30 : ℚ) * timeWeight .userAnalysis) ((30 : ℚ) - 0) = 6
    norm_num [timeWeight]
  refine ⟨htok, hspec, ?_, htime, hstime, ?_⟩
  · rw [htok, hspec]; decide
  · rw [htime, hstime]; norm_num

/-- C2 amended: the budgets of a phase iteration are
`weight × the constraints passed to _run_phase_with_timeout`, and those
constraints are derived in `_collaborate_phase` from the resources
*remaining* divided by the iterations left — the original constraints are
not consulted and no explicit `min` cap is applied; in effect the token
budget still never exceeds the tokens remaining (when those are
nonnegative), but it is generally strictly below the spec's
`min(weight × original, remaining)`. -/
theorem phase_budget_from_derived :
    ∀ (c : ResourceConstraints) (total : Nat) (elapsed : ℚ) (iters i : Nat) (p : Phase),
      (phaseBudget (iterationConstraints c total elapsed iters i) p).token_budget
        = pyInt (((iterationConstraints c total elapsed iters i).max_tokens : ℚ) * tokenWeight p)
      ∧ (phaseBudget (iterationConstraints c total elapsed iters i) p).time_budget
        = (c.max_time - elapsed) / ((iters - i : Nat) : ℚ) * timeWeight p
      ∧ (0 ≤ c.max_tokens - (total : Int) →
          (phaseBudget (iterationConstraints c total elapsed iters i) p).token_budget
            ≤ c.max_tokens - (total : Int)) := by
  intro c total elapsed iters i p
  refine ⟨rfl, rfl, ?_⟩
  intro hrem
  have hkb : (0 : Int) ≤ ((iters - i : Nat) : Int) := Int.natCast_nonneg _
  set R : Int := c.max_tokens - (total : Int) with hR
  have hfd : Int.fdiv R ((iters - i : Nat) : Int) = R / ((iters - i : Nat) : Int) :=
    Int.fdiv_eq_ediv R hkb
  have hd0 : (0 : Int) ≤ R / ((iters - i : Nat) : Int) := Int.ediv_nonneg hrem hkb
  have hdR : R / ((iters - i : Nat) : Int) ≤ R := Int.ediv_le_self _ hrem
  have hw0 : (0 : ℚ) ≤ tokenWeight p := by cases p <;> norm_num [tokenWeight]
  have hw1 : tokenWeight p ≤ 1 := by cases p <;> norm_num [tokenWeight]
  show pyInt (((iterationConstraints c total elapsed iters i).max_tokens : ℚ) * tokenWeight p) ≤ R
  have hm : (iterationConstraints c total elapsed iters i).max_tokens
      = R / ((iters - i : Nat) : Int) := hfd
  rw [hm]
  set D : Int := R / ((iters - i : Nat) : Int) with hD
  have hq0 : (0 : ℚ) ≤ (D : ℚ) * tokenWeight p :=
    mul_nonneg (by exact_mod_cast hd0) hw0
  have hle : (D : ℚ) * tokenWeight p ≤ ((D : ℚ)) :=
    mul_le_of_le_one_right (by exact_mod_cast hd0) hw1
  calc pyInt ((D : ℚ) * tokenWeight p)
      = ⌊(D : ℚ) * tokenWeight p⌋ := by rw [pyInt, if_pos hq0]
    _ ≤ ⌊((D : ℚ))⌋ := Int.floor_le_floor hle
    _ = D := Int.floor_intCast D
    _ ≤ R := hdR

/-- C2 witness: the amended theorem applied at the concrete first
USER_ANALYSIS iteration of a 1000-token call. -/
theorem phase_budget_from_derived_witness :
    (0 : Int) ≤ (1000 : Int) - ((0 : Nat) : Int) ∧
    (phaseBudget (iterationConstraints ⟨1000, 10, 30⟩ 0 0 2 0) .userAnalysis).token_budget
      ≤ (1000 : Int) - ((0 : Nat) : Int) := by
  refine ⟨by decide, ?_⟩
  exact (phase_budget_from_derived ⟨1000, 10, 30⟩ 0 0 2 0 .userAnalysis).2.2 (by decide)

/-- C6 counterexample: with a Message already recorded from an earlier
phase, formatting an empty content still returns the literal no-response
notice — the effective `_format_final_response` (the second definition in
the class body, which shadows the first) has no fallback to the recorded
Messages. -/
theorem format_no_fallback_cex :
    format_final_response
        { total_tokens := 7
          phase_tokens := fun _ => 0
          responses := [⟨"analysis content", 7, "model1", "model2", .userAnalysis⟩] }
        "3.00" "" = noResponseNotice ∧
    ({ total_tokens := 7
       phase_tokens := fun _ => 0
       responses := [⟨"analysis content", 7, "model1", "model2", .userAnalysis⟩] } :
      RunState).responses ≠ [] := by
  exact ⟨rfl, by decide⟩

/-- C6 amended: the effective `_format_final_response` returns the literal
notice whenever the content is empty, regardless of the Messages recorded
in earlier phases (no fallback); and its output depends on the run state
only through `_total_tokens` — in particular it carries no per-phase token
breakdown and never consults the recorded Messages (the definition with
the breakdown, lines 237-254, is shadowed). -/
theorem format_final_amended :
    (∀ (st : RunState) (e : String),
        format_final_response st e "" = noResponseNotice) ∧
    (∀ (st st' : RunState) (e r : String),
        st.total_tokens = st'.total_tokens →
        format_final_response st e r = format_final_response st' e r) := by
  constructor
  · intro st e
    rfl
  · intro st st' e r h
    unfold format_final_response
    rw [h]

/-- C6 witness: the amended theorem applied to two concrete states with
the same token total but different per-phase maps and recorded Messages. -/
theorem format_final_amended_witness :
    ({ total_tokens := 7, phase_tokens := fun _ => 0, responses := [] } :
        RunState).total_tokens
      = ({ total_tokens := 7, phase_tokens := fun _ => 7
           responses := [⟨"analysis content", 7, "model1", "model2", .userAnalysis⟩] } :
          RunState).total_tokens ∧
    format_final_response
        { total_tokens := 7, phase_tokens := fun _ => 0, responses := [] } "3.00" "hi"
      = format_final_response
        { total_tokens := 7, phase_tokens := fun _ => 7
          responses := [⟨"analysis content", 7, "model1", "model2", .userAnalysis⟩] }
        "3.00" "hi" := by
  refine ⟨rfl, ?_⟩
  exact format_final_amended.2
    { total_tokens := 7, phase_tokens := fun _ => 0, responses := [] }
    { total_tokens := 7, phase_tokens := fun _ => 7
      responses := [⟨"analysis content", 7, "model1", "model2", .userAnalysis⟩] }
    "3.00" "hi" rfl

/-- Folding `recordBatch` adds the batches' token sums to the total. -/
theorem applyBatches_total_tokens (batches : List (Phase × List Message)) :
    ∀ (st : RunState),
      (applyBatches st batches).total_tokens
        = st.total_tokens
          + (batches.map (fun b => (b.2.map Message.tokens_used).sum)).sum := by
  induction batches with
  | nil => intro st; simp [applyBatches]
  | cons b rest ih =>
    intro st
    have h := ih (recordBatch st b.1 b.2)
    simp only [applyBatches, List.foldl_cons] at h ⊢
    rw [h]
    simp [recordBatch, Nat.add_assoc]

/-- Folding `recordBatch` appends the batches' messages to the recorded
history. -/
theorem applyBatches_responses (batches : List (Phase × List Message)) :
    ∀ (st : RunState),
      (applyBatches st batches).responses
        = st.responses ++ (batches.map (fun b => b.2)).flatten := by
  induction batches with
  | nil => intro st; simp [applyBatches]
  | cons b rest ih =>
    intro st
    have h := ih (recordBatch st b.1 b.2)
    simp only [applyBatches, List.foldl_cons] at h ⊢
    rw [h]
    simp [recordBatch]

/-- C1: starting from the reset performed at `send` entry
(`_total_tokens = 0`, nothing recorded for the call yet), after any
sequence of recorded phase batches the running total `_total_tokens`
equals the sum of `tokens_used` over all Messages recorded in the call's
response history. -/
theorem total_tokens_eq_sum_recorded :
    ∀ (pt : Phase → Nat) (batches : List (Phase × List Message)),
      (applyBatches (initRunState pt) batches).total_tokens
        = (((applyBatches (initRunState pt) batches).responses).map Message.tokens_used).sum := by
  intro pt batches
  rw [applyBatches_total_tokens, applyBatches_responses]
  simp [initRunState, List.map_flatten, List.sum_flatten, List.map_map, Function.comp_def]

/-- Messages whose content trims to the empty string do not affect the
`unique_contents` fold. -/
theorem ucFold_filter (rs : List Message) :
    ∀ (acc : List String),
      rs.foldl ucStep acc
        = (rs.filter (fun m => m.content.trim != "")).foldl ucStep acc := by
  induction rs with
  | nil => intro acc; rfl
  | cons m rest ih =>
    intro acc
    by_cases h : m.content.trim = ""
    · have hcond : ¬(m.content.trim ≠ "" ∧ m.content.trim ∉ acc) := fun hc => hc.1 h
      have hb : (m.content.trim != "") = false := by simp [h]
      simp only [List.filter_cons, hb, List.foldl_cons, if_neg]
      rw [show ucStep acc m = acc from by simp [ucStep, hcond]]
      exact ih acc
    · have hb : (m.content.trim != "") = true := by simp [h]
      simp only [List.filter_cons, hb, List.foldl_cons, if_pos]
      exact ih _

/-- The `unique_contents` fold preserves freedom from duplicates. -/
theorem ucFold_nodup (rs : List Message) :
    ∀ (acc : List String), acc.Nodup → (rs.foldl ucStep acc).Nodup := by
  induction rs with
  | nil => intro acc h; exact h
  | cons m rest ih =>
    intro acc hacc
    simp only [List.foldl_cons]
    refine ih _ ?_
    unfold ucStep
    by_cases hcond : m.content.trim ≠ "" ∧ m.content.trim ∉ acc
    · rw [if_pos hcond, List.nodup_append]
      refine ⟨hacc, List.nodup_singleton _, ?_⟩
      intro a ha hb
      rw [List.mem_singleton] at hb
      subst hb
      exact hcond.2 ha
    · rw [if_neg hcond]
      exact hacc

/-- C10: `_integrate_responses` returns `""` on the empty list; messages
whose content trims to the empty string are dropped (filtering them away
beforehand changes nothing); the retained contents carry no duplicates;
and the result is always the blank-line join of the retained unique
contents. -/
theorem integrate_behavior :
    integrate_responses [] = "" ∧
    (∀ (rs : List Message),
        unique_contents rs
          = unique_contents (rs.filter (fun m => m.content.trim != ""))) ∧
    (∀ (rs : List Message), (unique_contents rs).Nodup) ∧
    (∀ (rs : List Message),
        integrate_responses rs = String.intercalate "\n\n" (unique_contents rs)) := by
  refine ⟨rfl, ?_, ?_, ?_⟩
  · intro rs
    unfold unique_contents
    exact ucFold_filter rs []
  · intro rs
    exact ucFold_nodup rs [] List.nodup_nil
  · intro rs
    cases rs with
    | nil => rfl
    | cons m rest => rfl

/-- The formatted final response is never the empty string: either the
literal notice or trimmed content followed by a non-empty footer. -/
theorem format_final_response_length_pos (st : RunState) (e r : String) :
    0 < (format_final_response st e r).length := by
  unfold format_final_response
  by_cases h : r = ""
  · rw [if_pos h]
    decide
  · rw [if_neg h]
    simp only [String.length_append]
    have h1 : ("s" : String).length = 1 := rfl
    omega

/-- A phase iteration whose dispatch errors (timeout or transport failure)
leaves the state untouched and yields no messages. -/
theorem collaboratePhase_cons_error (c : ResourceConstraints) (phase : Phase)
    (st : RunState) (elapsed : ℚ) (outcomes : List VoiceOutcome)
    (rest : List IterEnv) (err : PhaseError)
    (hres : ¬(c.max_time - elapsed ≤ 0 ∨ c.max_tokens - (st.total_tokens : Int) ≤ 0))
    (hd : runPhaseDispatch outcomes = .error err) :
    collaboratePhase c phase st [] ((elapsed, outcomes) :: rest) = (st, []) := by
  unfold collaboratePhase
  rw [if_neg hres, hd]

/-- C5: the embedded `Ensemble.send` is a total, string-valued function of
its wall-clock/network environment — every exception a voice failure,
phase timeout or resource exhaustion can produce is caught below it, so
it always returns a (non-empty) string; in the worst case (every voice
call of the analysis phase still pending at the deadline and the time
budget then exhausted) it returns the literal no-response notice; only
the configuration error raised by `create_ensemble` before any
orchestration (missing API key) escapes to the caller. -/
theorem send_never_raises :
    (∀ (c : ResourceConstraints) (pt0 : Phase → Nat) (env : SendEnv),
        0 < (sendModel c pt0 env).length) ∧
    sendModel ⟨1000, 10, 30⟩ (fun _ => 0)
        { analysisIters := [(0, [.pending, .pending])]
          elapsedAfterAnalysis := 30
          planIters := []
          elapsedAfterPlanning := 30
          draftIters := []
          finalElapsedRepr := "30.00" }
      = noResponseNotice ∧
    (create_ensemble none ["mistralai/ministral-8b"]).isOk = false := by
  refine ⟨?_, ?_, rfl⟩
  · intro c pt0 env
    simp only [sendModel]
    split
    · split
      · exact format_final_response_length_pos _ _ _
      · exact format_final_response_length_pos _ _ _
    · exact format_final_response_length_pos _ _ _
  · have h1 : collaboratePhase ⟨1000, 10, 30⟩ .userAnalysis
        (initRunState fun _ => 0) [] [(0, [.pending, .pending])]
        = (initRunState fun _ => 0, []) := by
      refine collaboratePhase_cons_error _ _ _ _ _ _ .timeout ?_ rfl
      norm_num [initRunState]
    simp only [sendModel, h1]
    rw [if_neg]
    · rfl
    · rintro ⟨ht, -⟩
      norm_num [initRunState] at ht

/-- `get_next_voice` sends the element at index `i` of a duplicate-free
list to the element at index `(i + 1) % N`. -/
theorem get_next_voice_get {V : Type} [DecidableEq V] (l : List V) (hnd : l.Nodup)
    (i : Nat) (hi : i < l.length) :
    get_next_voice l (l.get ⟨i, hi⟩) = l[(i + 1) % l.length]? := by
  cases l with
  | nil => cases hi
  | cons v0 rest =>
    show (if (v0 :: rest).get ⟨i, hi⟩ ∈ v0 :: rest then
        (v0 :: rest)[((List.indexOf ((v0 :: rest).get ⟨i, hi⟩) (v0 :: rest) + 1)
          % (v0 :: rest).length)]?
      else some v0) = (v0 :: rest)[(i + 1) % (v0 :: rest).length]?
    rw [if_pos (List.get_mem _ _ _)]
    have hidx : List.indexOf ((v0 :: rest).get ⟨i, hi⟩) (v0 :: rest) = i := by
      have h := List.indexOf_getElem hnd i hi
      exact h
    rw [hidx]

/-- Iterating the rotation `k` times from index `i` lands on index
`(i + k) % N`. -/
theorem iterNext_get {V : Type} [DecidableEq V] (l : List V) (hnd : l.Nodup) :
    ∀ (k i : Nat) (hi : i < l.length),
      iterNext l k (l.get ⟨i, hi⟩) = l[(i + k) % l.length]? := by
  intro k
  induction k with
  | zero =>
    intro i hi
    show some (l.get ⟨i, hi⟩) = _
    rw [Nat.add_zero, Nat.mod_eq_of_lt hi, List.getElem?_eq_getElem hi,
      List.get_eq_getElem]
  | succ k ih =>
    intro i hi
    have hlen : 0 < l.length := Nat.lt_of_le_of_lt (Nat.zero_le i) hi
    have hb : (i + 1) % l.length < l.length := Nat.mod_lt _ hlen
    have harith : ((i + 1) % l.length + k) % l.length = (i + (k + 1)) % l.length := by
      rw [Nat.mod_add_mod]
      congr 1
      omega
    calc iterNext l (k + 1) (l.get ⟨i, hi⟩)
        = (get_next_voice l (l.get ⟨i, hi⟩)).bind (iterNext l k) := rfl
      _ = (l[(i + 1) % l.length]?).bind (iterNext l k) := by
          rw [get_next_voice_get l hnd i hi]
      _ = iterNext l k (l.get ⟨(i + 1) % l.length, hb⟩) := by
          rw [List.getElem?_eq_getElem hb]
          rfl
      _ = l[((i + 1) % l.length + k) % l.length]? := ih ((i + 1) % l.length) hb
      _ = l[(i + (k + 1)) % l.length]? := by rw [harith]

/-- C8: for a duplicate-free voice list (model ids are unique within an
ensemble), the rotation target of the voice at index `i` is the voice at
index `(i + 1) % N`; for a singleton list the target is the voice itself;
applying the rotation `N` times returns to the starting voice; for `N ≥ 2`
the target always differs from the source; and for a voice not in a
non-empty list the fallback returns the first voice without raising
(`none`, the `ValueError`, occurs only for the empty list, where `head?`
is also `none`). -/
theorem rotation_spec {V : Type} [DecidableEq V] :
    (∀ (l : List V), l.Nodup → ∀ (i : Nat) (hi : i < l.length),
        get_next_voice l (l.get ⟨i, hi⟩) = l[(i + 1) % l.length]?) ∧
    (∀ (v : V), get_next_voice [v] v = some v) ∧
    (∀ (l : List V), l.Nodup → ∀ v ∈ l, iterNext l l.length v = some v) ∧
    (∀ (l : List V), l.Nodup → 2 ≤ l.length → ∀ v ∈ l, get_next_voice l v ≠ some v) ∧
    (∀ (l : List V) (v : V), v ∉ l → get_next_voice l v = l.head?) := by
  refine ⟨fun l hnd i hi => get_next_voice_get l hnd i hi, ?_, ?_, ?_, ?_⟩
  · intro v
    show (if v ∈ [v] then
        [v][((List.indexOf v [v] + 1) % ([v] : List V).length)]?
      else some v) = some v
    rw [if_pos (List.mem_singleton_self v)]
    simp [List.indexOf_cons_self]
  · intro l hnd v hv
    have hi : List.indexOf v l < l.length := List.indexOf_lt_length.2 hv
    have hvget : l.get ⟨List.indexOf v l, hi⟩ = v := List.indexOf_get hi
    calc iterNext l l.length v
        = iterNext l l.length (l.get ⟨List.indexOf v l, hi⟩) := by rw [hvget]
      _ = l[(List.indexOf v l + l.length) % l.length]? :=
          iterNext_get l hnd l.length (List.indexOf v l) hi
      _ = l[List.indexOf v l]? := by rw [Nat.add_mod_right, Nat.mod_eq_of_lt hi]
      _ = some (l.get ⟨List.indexOf v l, hi⟩) := List.getElem?_eq_getElem hi
      _ = some v := by rw [hvget]
  · intro l hnd h2 v hv heq
    have hi : List.indexOf v l < l.length := List.indexOf_lt_length.2 hv
    have hvget : l.get ⟨List.indexOf v l, hi⟩ = v := List.indexOf_get hi
    rw [← hvget, get_next_voice_get l hnd (List.indexOf v l) hi] at heq
    have hlen : 0 < l.length := Nat.lt_of_le_of_lt (Nat.zero_le _) hi
    have hb : (List.indexOf v l + 1) % l.length < l.length := Nat.mod_lt _ hlen
    rw [List.getElem?_eq_getElem hb] at heq
    have hget : l.get ⟨(List.indexOf v l + 1) % l.length, hb⟩
        = l.get ⟨List.indexOf v l, hi⟩ := Option.some.inj heq
    have hfin := (hnd.get_inj_iff).1 hget
    have hmod : (List.indexOf v l + 1) % l.length = List.indexOf v l :=
      congrArg Fin.val hfin
    by_cases hlt : List.indexOf v l + 1 < l.length
    · rw [Nat.mod_eq_of_lt hlt] at hmod
      omega
    · have hEq : List.indexOf v l + 1 = l.length := by omega
      rw [hEq, Nat.mod_self] at hmod
      omega
  · intro l v hv
    cases l with
    | nil => rfl
    | cons v0 rest =>
      show (if v ∈ v0 :: rest then
          (v0 :: rest)[((List.indexOf v (v0 :: rest) + 1) % (v0 :: rest).length)]?
        else some v0) = (v0 :: rest).head?
      rw [if_neg hv]
      rfl

/-- C8 witness: the rotation facts applied to the concrete voice list
`[0, 1, 2]`: three applications return to the start, the target differs
from the source, and an unknown voice falls back to the first. -/
theorem rotation_spec_witness :
    (([0, 1, 2] : List ℕ).Nodup ∧ (1 : ℕ) ∈ ([0, 1, 2] : List ℕ)) ∧
    iterNext ([0, 1, 2] : List ℕ) 3 1 = some 1 ∧
    get_next_voice ([0, 1, 2] : List ℕ) 1 ≠ some 1 ∧
    get_next_voice ([0, 1, 2] : List ℕ) 5 = some 0 := by
  refine ⟨⟨by decide, by decide⟩, ?_, ?_, ?_⟩
  · exact (@rotation_spec ℕ _).2.2.1 [0, 1, 2] (by decide) 1 (by decide)
  · exact (@rotation_spec ℕ _).2.2.2.1 [0, 1, 2] (by decide) (by decide) 1 (by decide)
  · exact (@rotation_spec ℕ _).2.2.2.2 [0, 1, 2] 5 (by decide)

end Metachor
